import Mathlib

/-!
Verification development for the playlist-formatter ingestion pipeline.

The Rust source is shallowly embedded: strings are Lean `String` / `List Char`
(the inputs of interest are ASCII, so Rust byte indices coincide with char
indices), `chrono::TimeDelta` values are whole seconds modelled as `Int`
(the code only ever constructs whole-second deltas), `chrono::NaiveDate`,
`NaiveTime` and `NaiveDateTime` are explicit structures, and fallible or
panicking code returns `Option`.
-/

namespace PlaylistFormatter

/-! ## String helpers (models of the Rust `str` operations used by the code) -/

/-- Model of Rust `str::trim` (drops leading and trailing whitespace). -/
def trimChars (cs : List Char) : List Char :=
  ((cs.dropWhile Char.isWhitespace).reverse.dropWhile Char.isWhitespace).reverse

/-- `str::trim` lifted to `String`. -/
def trimStr (s : String) : String :=
  String.mk (trimChars s.data)

/-- Worker for `replaceAll`: `skip` counts characters of a matched pattern
occurrence that still have to be dropped from the input. -/
def replaceAllAux (pat rep : List Char) : List Char → Nat → List Char
  | [], _ => []
  | _ :: rest, skip + 1 => replaceAllAux pat rep rest skip
  | c :: rest, 0 =>
    if 0 < pat.length ∧ pat.isPrefixOf (c :: rest) then
      rep ++ replaceAllAux pat rep rest (pat.length - 1)
    else
      c :: replaceAllAux pat rep rest 0

/-- Model of Rust `str::replace`: replace every non-overlapping occurrence of
`pat` by `rep`, scanning left to right. -/
def replaceAll (pat rep cs : List Char) : List Char :=
  replaceAllAux pat rep cs 0

/-- Model of Rust `str::split(c)`: split at every occurrence of the separator,
keeping empty pieces (a split always yields at least one piece). -/
def splitOnChar (sep : Char) : List Char → List (List Char)
  | [] => [[]]
  | c :: rest =>
    match splitOnChar sep rest with
    | [] => if c = sep then [[], []] else [[c]]
    | piece :: pieces =>
      if c = sep then [] :: piece :: pieces else (c :: piece) :: pieces

/-- Model of Rust `str::find(pat)`: index of the first occurrence of `pat`
(char index; equal to the Rust byte index on ASCII input). -/
def findSub (pat : List Char) : List Char → Option Nat
  | [] => if pat.isEmpty then some 0 else none
  | c :: rest =>
    if pat.isPrefixOf (c :: rest) then some 0
    else (findSub pat rest).map (· + 1)

/-! ## Date and time model (the parts of `chrono` the code relies on) -/

/-- Model of `chrono::NaiveDate` (year, month, day). -/
structure NaiveDate where
  year : Int
  month : Nat
  day : Nat
deriving DecidableEq, Repr

/-- Model of `chrono::NaiveTime`, whole seconds only: the program never
constructs sub-second values. -/
structure NaiveTime where
  hour : Nat
  minute : Nat
  second : Nat
deriving DecidableEq, Repr

/-- Model of `chrono::NaiveDateTime` as a date plus a time of day. -/
structure NaiveDateTime where
  date : NaiveDate
  time : NaiveTime
deriving DecidableEq, Repr

/-- Proleptic-Gregorian leap year test, as used by `chrono`.
The years reaching this model are 4-digit regex captures, hence nonneg. -/
def isLeapYear (y : Int) : Bool :=
  y % 4 = 0 && (y % 100 ≠ 0 || y % 400 = 0)

/-- Days in a month of a given year; `0` for an invalid month number. -/
def daysInMonth (y : Int) (m : Nat) : Nat :=
  match m with
  | 1 => 31
  | 2 => if isLeapYear y then 29 else 28
  | 3 => 31
  | 4 => 30
  | 5 => 31
  | 6 => 30
  | 7 => 31
  | 8 => 31
  | 9 => 30
  | 10 => 31
  | 11 => 30
  | 12 => 31
  | _ => 0

/-- Model of `chrono::NaiveDate::from_ymd_opt`: `none` unless the triple is a
valid calendar date. (`chrono` also bounds the year magnitude; the years that
reach this function are 4-digit regex captures, far inside that bound.) -/
def NaiveDate.fromYmdOpt (y : Int) (m d : Nat) : Option NaiveDate :=
  if 1 ≤ m ∧ m ≤ 12 ∧ 1 ≤ d ∧ d ≤ daysInMonth y m then
    some ⟨y, m, d⟩
  else
    none

/-- `NaiveDate::and_hms_opt(0, 0, 0)` — midnight is always a valid time. -/
def NaiveDate.atMidnight (d : NaiveDate) : NaiveDateTime :=
  ⟨d, ⟨0, 0, 0⟩⟩

/-- `chrono`'s `Default` for `NaiveDateTime` is the Unix epoch,
1970-01-01 00:00:00; `unwrap_or_default()` falls back to it. -/
def epochDateTime : NaiveDateTime :=
  ⟨⟨1970, 1, 1⟩, ⟨0, 0, 0⟩⟩

/-- Days since 1970-01-01 of a civil date (standard days-from-civil
algorithm, matching `chrono`'s internal day numbering). -/
def daysFromCivil (dt : NaiveDate) : Int :=
  let y : Int := if dt.month ≤ 2 then dt.year - 1 else dt.year
  let era : Int := (if 0 ≤ y then y else y - 399) / 400
  let yoe : Int := y - era * 400
  let mp : Int := if 2 < dt.month then (dt.month : Int) - 3 else (dt.month : Int) + 9
  let doy : Int := (153 * mp + 2) / 5 + (dt.day : Int) - 1
  let doe : Int := yoe * 365 + yoe / 4 - yoe / 100 + doy
  era * 146097 + doe - 719468

/-- Seconds since the Unix epoch of a `NaiveDateTime`. -/
def NaiveDateTime.toEpochSecs (dt : NaiveDateTime) : Int :=
  daysFromCivil dt.date * 86400
    + (dt.time.hour : Int) * 3600 + (dt.time.minute : Int) * 60 + (dt.time.second : Int)

/-- Model of `chrono` `NaiveDateTime` subtraction (`end - start`), in whole
seconds. -/
def dtSub (e s : NaiveDateTime) : Int :=
  e.toEpochSecs - s.toEpochSecs

/-! ## `chrono` format-string parsing

Models of `NaiveTime::parse_from_str` / `NaiveDateTime::parse_from_str` for
the three fixed patterns the code uses.  `chrono` parses a two-digit numeric
item leniently (1 or 2 digits, greedy, no backtracking), a whitespace item in
the pattern skips any amount of whitespace (including none), `%Z` skips a
(possibly empty) run of non-whitespace characters without resolving it, and
the whole input must be consumed. -/

/-- The numeric value of a decimal digit character. -/
def digitVal (c : Char) : Nat :=
  c.toNat - 48

/-- Greedy 1-or-2-digit numeric item (`chrono`'s `%H`, `%M`, `%S`, `%d`, `%m`
during parsing): take two digits if available, else one, else fail. -/
def parseNum12 : List Char → Option (Nat × List Char)
  | [] => none
  | [c] => if c.isDigit then some (digitVal c, []) else none
  | c1 :: c2 :: rest =>
    if c1.isDigit then
      if c2.isDigit then some (digitVal c1 * 10 + digitVal c2, rest)
      else some (digitVal c1, c2 :: rest)
    else none

/-- Greedy run of decimal digits, at least one (`chrono`'s `%Y` during
parsing, for the nonnegative years that occur here). -/
def parseNumAll (cs : List Char) : Option (Nat × List Char) :=
  let digits := cs.takeWhile Char.isDigit
  if digits.isEmpty then none
  else some (digits.foldl (fun acc c => acc * 10 + digitVal c) 0, cs.dropWhile Char.isDigit)

/-- Consume one expected literal character. -/
def expectChar (c : Char) : List Char → Option (List Char)
  | [] => none
  | x :: rest => if x = c then some rest else none

/-- A whitespace item in a `chrono` pattern: skip zero or more whitespace. -/
def skipWhitespace (cs : List Char) : List Char :=
  cs.dropWhile Char.isWhitespace

/-- `%Z` during parsing: skip zero or more non-whitespace characters. -/
def skipTzName (cs : List Char) : List Char :=
  cs.dropWhile (fun c => !c.isWhitespace)

/-- Hour/minute/second validity enforced by `NaiveTime` construction. -/
def mkTimeOpt (h m s : Nat) : Option NaiveTime :=
  if h ≤ 23 ∧ m ≤ 59 ∧ s ≤ 59 then some ⟨h, m, s⟩ else none

/-- Model of `NaiveTime::parse_from_str(t, "%H.%M.%S %Z")`. -/
def parseTimeZ (t : String) : Option NaiveTime := do
  let (h, r1) ← parseNum12 t.data
  let r2 ← expectChar '.' r1
  let (m, r3) ← parseNum12 r2
  let r4 ← expectChar '.' r3
  let (s, r5) ← parseNum12 r4
  let r6 := skipTzName (skipWhitespace r5)
  if r6 = [] then mkTimeOpt h m s else none

/-- Model of `NaiveTime::parse_from_str(t, "%H:%M:%S")`. -/
def parseTimeColon (t : String) : Option NaiveTime := do
  let (h, r1) ← parseNum12 t.data
  let r2 ← expectChar ':' r1
  let (m, r3) ← parseNum12 r2
  let r4 ← expectChar ':' r3
  let (s, r5) ← parseNum12 r4
  if r5 = [] then mkTimeOpt h m s else none

/-- Model of `NaiveDateTime::parse_from_str(t, "%d.%m.%Y, %H.%M.%S %Z")`,
the Serato playlist-info timestamp pattern. -/
def parseDateTimeFull (t : String) : Option NaiveDateTime := do
  let (d, r1) ← parseNum12 t.data
  let r2 ← expectChar '.' r1
  let (m, r3) ← parseNum12 r2
  let r4 ← expectChar '.' r3
  let (y, r5) ← parseNumAll r4
  let r6 ← expectChar ',' r5
  let r7 := skipWhitespace r6
  let (hh, r8) ← parseNum12 r7
  let r9 ← expectChar '.' r8
  let (mm, r10) ← parseNum12 r9
  let r11 ← expectChar '.' r10
  let (ss, r12) ← parseNum12 r11
  let r13 := skipTzName (skipWhitespace r12)
  if r13 = [] then
    let date ← NaiveDate.fromYmdOpt (y : Int) m d
    let time ← mkTimeOpt hh mm ss
    pure ⟨date, time⟩
  else none

/-! ## The two date regexes of `playlist.rs`

`RE_DD_MM_YYYY = (\d{1,2})\.(\d{1,2})\.(\d{4})` and
`RE_YYYY_MM_DD = (\d{4})\.(\d{1,2})\.(\d{1,2})`, searched with
`Regex::captures`: leftmost match position wins, and at a given position a
greedy `{1,2}` prefers two digits, falling back to one.  The captures are
then parsed with `str::parse`, which on an all-digit capture is just the
numeric value. -/

/-- Exactly `n` leading digits, returning their value and the rest. -/
def takeDigits : Nat → Nat → List Char → Option (Nat × List Char)
  | acc, 0, cs => some (acc, cs)
  | acc, n + 1, c :: cs =>
    if c.isDigit then takeDigits (acc * 10 + digitVal c) n cs else none
  | _, _ + 1, [] => none

/-- One anchored attempt of `(\d{dl})\.(\d{ml})\.(\d{4})` at the start of
`cs`, returning the captures `(first, second, year)`. -/
def tryDayMonthYear (dl ml : Nat) (cs : List Char) : Option (Nat × Nat × Nat) := do
  let (a, r1) ← takeDigits 0 dl cs
  let r2 ← expectChar '.' r1
  let (b, r3) ← takeDigits 0 ml r2
  let r4 ← expectChar '.' r3
  let (y, _) ← takeDigits 0 4 r4
  pure (a, b, y)

/-- Anchored `(\d{1,2})\.(\d{1,2})\.(\d{4})` with greedy preference:
two digits before one, the left group backtracking last. -/
def tryDDMMYYYY (cs : List Char) : Option (Nat × Nat × Nat) :=
  (tryDayMonthYear 2 2 cs).orElse fun _ =>
    (tryDayMonthYear 2 1 cs).orElse fun _ =>
      (tryDayMonthYear 1 2 cs).orElse fun _ =>
        tryDayMonthYear 1 1 cs

/-- `RE_DD_MM_YYYY.captures(input)`: captures `(day, month, year)` of the
leftmost match, if any. -/
def ddmmyyyyCaptures : List Char → Option (Nat × Nat × Nat)
  | [] => tryDDMMYYYY []
  | c :: rest =>
    match tryDDMMYYYY (c :: rest) with
    | some r => some r
    | none => ddmmyyyyCaptures rest

/-- One anchored attempt of `(\d{4})\.(\d{ml})\.(\d{dl})` at the start of
`cs`, returning the captures `(year, month, day)`. -/
def tryYearMonthDay (ml dl : Nat) (cs : List Char) : Option (Nat × Nat × Nat) := do
  let (y, r1) ← takeDigits 0 4 cs
  let r2 ← expectChar '.' r1
  let (m, r3) ← takeDigits 0 ml r2
  let r4 ← expectChar '.' r3
  let (d, _) ← takeDigits 0 dl r4
  pure (y, m, d)

/-- Anchored `(\d{4})\.(\d{1,2})\.(\d{1,2})` with greedy preference. -/
def tryYYYYMMDD (cs : List Char) : Option (Nat × Nat × Nat) :=
  (tryYearMonthDay 2 2 cs).orElse fun _ =>
    (tryYearMonthDay 2 1 cs).orElse fun _ =>
      (tryYearMonthDay 1 2 cs).orElse fun _ =>
        tryYearMonthDay 1 1 cs

/-- `RE_YYYY_MM_DD.captures(input)`: captures `(year, month, day)` of the
leftmost match, if any. -/
def yyyymmddCaptures : List Char → Option (Nat × Nat × Nat)
  | [] => tryYYYYMMDD []
  | c :: rest =>
    match tryYYYYMMDD (c :: rest) with
    | some r => some r
    | none => yyyymmddCaptures rest

/-! ## `track.rs`: the `Track` record -/

/-- `track.rs` `Track`: one played item.  `play_time` is an optional whole-
second duration (`Option<TimeDelta>`). -/
structure Track where
  artist : String
  title : String
  start_time : Option NaiveDateTime
  end_time : Option NaiveDateTime
  play_time : Option Int
deriving DecidableEq, Repr

/-- `impl PartialEq for Track`: equality on `artist` and `title` only. -/
def trackEq (a b : Track) : Bool :=
  a.artist == b.artist && a.title == b.title

/-- `impl AddAssign<Option<TimeDelta>> for Track`, restricted to the
`play_time` field it updates: adding `none` changes nothing; adding
`some d` adds to an existing duration or installs `d`. -/
def addPlayTime (pt d : Option Int) : Option Int :=
  match d with
  | none => pt
  | some d =>
    match pt with
    | none => some d
    | some t => some (t + d)

/-! ## `utils.rs` -/

/-- The body of the `get_total_playtime` loop: `sum += duration` for a
`Some` play time, no change for `None`. -/
def addTrackTime (sum : Int) (t : Track) : Int :=
  match t.play_time with
  | some duration => sum + duration
  | none => sum

/-- `utils.rs` `get_total_playtime`: sum the `Some` play times with a loop
starting from zero, then return `None` if the sum `is_zero`, else the sum. -/
def get_total_playtime (tracks : List Track) : Option Int :=
  let sum := tracks.foldl addTrackTime 0
  if sum = 0 then none else some sum

/-! ## `playlist.rs` / `serato.rs`: rows, name-date extraction, track parsing -/

/-- A parsed row: `BTreeMap<String, String>` modelled as an association list
with unique keys, looked up with `List.lookup`. -/
def Row := List (String × String)

/-- `BTreeMap::get`. -/
def rowGet (row : Row) (key : String) : Option String :=
  List.lookup key row

/-- `playlist.rs` `extract_datetime_from_name`: try `RE_DD_MM_YYYY` first;
a textual match makes the function commit — an invalid calendar date then
returns `None` via the `?` operator without trying `RE_YYYY_MM_DD`. -/
def extract_datetime_from_name (input : String) : Option NaiveDateTime :=
  match ddmmyyyyCaptures input.data with
  | some (day, month, year) =>
    (NaiveDate.fromYmdOpt (year : Int) month day).map NaiveDate.atMidnight
  | none =>
    match yyyymmddCaptures input.data with
    | some (year, month, day) =>
      (NaiveDate.fromYmdOpt (year : Int) month day).map NaiveDate.atMidnight
    | none => none

/-- `serato.rs` / `playlist.rs` `parse_serato_playlist_info`: playlist name
from the `name` field (empty when absent), date from the `start time` field
parsed with `"%d.%m.%Y, %H.%M.%S %Z"`; when that yields nothing and the name
is non-empty, fall back to the name scan. -/
def parse_serato_playlist_info (data : Row) : String × Option NaiveDateTime :=
  let playlist_name := (rowGet data "name").getD ""
  let parsed_date := (rowGet data "start time").bind parseDateTimeFull
  let playlist_date :=
    match parsed_date with
    | some d => some d
    | none =>
      if playlist_name ≠ "" then extract_datetime_from_name playlist_name else none
  (playlist_name, playlist_date)

/-- `serato.rs` `parse_track_with_time_from_row` (the same row-mapping code
appears inline in `playlist.rs`): start/end parsed with `"%H.%M.%S %Z"` and
composed with `start_date`; play time from the `playtime` field when that
key is present (its `"%H:%M:%S"` parse converted through
`try_hours/try_minutes/try_seconds`, which cannot fail for a valid
`NaiveTime`), and derived as `end - start` only when the key is absent. -/
def parse_track_with_time_from_row (start_date : NaiveDate) (row : Row) : Track :=
  let start_time : Option NaiveDateTime :=
    ((rowGet row "start time").bind parseTimeZ).map fun t => ⟨start_date, t⟩
  let end_time : Option NaiveDateTime :=
    ((rowGet row "end time").bind parseTimeZ).map fun t => ⟨start_date, t⟩
  let play_time : Option Int :=
    match rowGet row "playtime" with
    | some t =>
      (parseTimeColon t).map fun n =>
        (n.hour : Int) * 3600 + (n.minute : Int) * 60 + (n.second : Int)
    | none => start_time.bind fun s => end_time.map fun e => dtSub e s
  { artist := (rowGet row "artist").getD ""
    title := (rowGet row "name").getD ""
    start_time := start_time
    end_time := end_time
    play_time := play_time }

/-! ## The consecutive-duplicate merge -/

/-- One iteration of the `serato.rs` dedup loop: compare the new `track`
against `deduped_tracks.last_mut()`; on artist+title equality add its play
time to the last track and overwrite the last track's `end_time`, otherwise
push. -/
def mergeStep (acc : List Track) (track : Track) : List Track :=
  match acc.getLast? with
  | some last_track =>
    if trackEq last_track track then
      acc.dropLast ++
        [{ last_track with
            play_time := addPlayTime last_track.play_time track.play_time
            end_time := track.end_time }]
    else acc ++ [track]
  | none => acc ++ [track]

/-- The `serato.rs` dedup loop over the whole row list (starts from an empty
accumulator, so it is total). -/
def dedupTracks (initial_tracks : List Track) : List Track :=
  initial_tracks.foldl mergeStep []

/-- The `playlist.rs` variant of the dedup loop: it seeds the accumulator
with `initial_tracks[0].clone()` — an index-out-of-bounds panic (`none`) on
an empty list — and then runs the same compare-with-last loop (`index`
always points at the last element of the growing vector). -/
def dedupTracksIndexed (initial_tracks : List Track) : Option (List Track) :=
  match initial_tracks with
  | [] => none
  | first :: rest => some (rest.foldl mergeStep [first])

/-- `serato.rs` `parse_serato_tracks_from_data`: default the missing playlist
date to the epoch, parse every row after the info row, then merge
consecutive duplicates. -/
def parse_serato_tracks_from_data (data : List Row) (playlist_date : Option NaiveDateTime) :
    List Track :=
  let start_date := (playlist_date.getD epochDateTime).date
  let initial_tracks := (data.drop 1).map (parse_track_with_time_from_row start_date)
  dedupTracks initial_tracks

/-- `playlist.rs` `parse_serato_tracks_from_data`: same row parsing, but the
dedup seeds from `initial_tracks[0]` and panics (`none`) when the data holds
no track rows. -/
def parse_serato_tracks_from_data_v1 (data : List Row) (playlist_date : Option NaiveDateTime) :
    Option (List Track) :=
  let start_date := (playlist_date.getD epochDateTime).date
  let initial_tracks := (data.drop 1).map (parse_track_with_time_from_row start_date)
  dedupTracksIndexed initial_tracks

/-- The fields of `Playlist` that the ingestion claims are about (file path,
format tags and the derived display widths are omitted). -/
structure PlaylistModel where
  name : String
  date : Option NaiveDateTime
  tracks : List Track
  total_duration : Option Int
deriving DecidableEq, Repr

/-- `serato.rs` `read_serato_csv` on already-decoded rows: indexes `data[0]`
for the playlist-info row (a panic — `none` — on an empty record list), then
parses and merges the tracks and computes the total duration. -/
def read_serato_csv (data : List Row) : Option PlaylistModel :=
  match data with
  | [] => none
  | first :: _ =>
    let (playlist_name, playlist_date) := parse_serato_playlist_info first
    let tracks := parse_serato_tracks_from_data data playlist_date
    some
      { name := playlist_name
        date := playlist_date
        tracks := tracks
        total_duration := get_total_playtime tracks }

/-! ## The fixed-width text splitter (`serato.rs` `read_serato_txt_lines`;
the same algorithm appears inline in `playlist.rs` `read_txt_lines`) -/

/-- Header column names: collapse every run of exactly five spaces to a tab,
split on tabs, drop pieces that were empty before trimming, and trim the
rest (the code tests `s.is_empty()` on the untrimmed piece). -/
def splitColumns (header_line : String) : List String :=
  ((splitOnChar '\t' (replaceAll "     ".data "\t".data header_line.data)).filterMap
    fun s =>
      let v := trimChars s
      if s.isEmpty then none else some (String.mk v))

/-- Starting char offset of each column name in the unmodified header line
(`header_line.find(field)`; every name is a substring of the line, so
`filter_map` over `find` keeps them all). -/
def columnStartIndices (header_line : String) (column_names : List String) : List Nat :=
  column_names.filterMap fun field => findSub field.data header_line.data

/-- The inner extraction loop, over the reversed offset list: offsets not
reachable in the remaining string are skipped; otherwise the line is split
at the offset, the (trimmed) suffix is collected and the prefix carried on.
The result is in push order (rightmost column first). -/
def extractCells : List Nat → List Char → List String
  | [], _ => []
  | index :: rest, remaining_line =>
    if remaining_line.length ≤ index then
      extractCells rest remaining_line
    else
      String.mk (trimChars (remaining_line.drop index)) ::
        extractCells rest (remaining_line.take index)

/-- `serato.rs` `read_serato_txt_lines`: compute the column offsets from the
header line, then for every line (divider lines — first cell all dashes —
are skipped, the header line itself is not) extract the cells from the
rightmost offset backward, reverse them into line order and right-pad with
empty strings up to the column count. -/
def read_serato_txt_lines (initial_lines : List (List String)) : List (List String) :=
  let header_line := ((initial_lines.headD []).headD "")
  let column_names := splitColumns header_line
  let column_start_indices := (columnStartIndices header_line column_names).reverse
  (initial_lines.filter fun line => !((line.headD "").data.all (· = '-'))).map fun line =>
    let split_line := (extractCells column_start_indices (line.headD "").data).reverse
    split_line ++ List.replicate (column_names.length - split_line.length) ""

/-! ## Dialect detection (`playlist.rs` `read_csv` / `read_txt`) -/

/-- The dialects the detector can pick. -/
inductive Dialect
  | formattedCsv
  | seratoCsv
  | seratoTxt
  | rekordboxTxt
deriving DecidableEq, Repr

/-- `playlist.rs` `read_csv` dialect choice: an already-formatted CSV when
both `artist` and `title` headers are present; otherwise a Serato CSV after
checking its required fields `name` and `artist` in order, bailing with the
first missing one. -/
def detect_csv (keys : List String) : Except String Dialect :=
  if keys.contains "artist" && keys.contains "title" then
    Except.ok Dialect.formattedCsv
  else if !(keys.contains "name") then
    Except.error "Serato CSV missing required field: 'name'"
  else if !(keys.contains "artist") then
    Except.error "Serato CSV missing required field: 'artist'"
  else
    Except.ok Dialect.seratoCsv

/-- `playlist.rs` `read_txt` dialect choice: a `name` header selects Serato
TXT (whose reader then checks `artist` and `name` in order), a `#` header
selects Rekordbox TXT (checking `Artist` and `Track Title` in order), and
anything else is an unrecognized dialect. -/
def detect_txt (keys : List String) : Except String Dialect :=
  if keys.contains "name" then
    if !(keys.contains "artist") then
      Except.error "Serato TXT missing required field: 'artist'"
    else if !(keys.contains "name") then
      Except.error "Serato TXT missing required field: 'name'"
    else
      Except.ok Dialect.seratoTxt
  else if keys.contains "#" then
    if !(keys.contains "Artist") then
      Except.error "Rekordbox TXT missing required field: 'Artist'"
    else if !(keys.contains "Track Title") then
      Except.error "Rekordbox TXT missing required field: 'Track Title'"
    else
      Except.ok Dialect.rekordboxTxt
  else
    Except.error "Input file does not seem to be a valid Serato or Rekordbox txt playlist"

/-- `utils.rs` `FileFormat` (the two supported input extensions). -/
inductive FileFormat
  | Txt
  | Csv
deriving DecidableEq, Repr

/-- Dialect detection for a supported extension and header-key set. -/
def detect (format : FileFormat) (keys : List String) : Except String Dialect :=
  match format with
  | FileFormat.Csv => detect_csv keys
  | FileFormat.Txt => detect_txt keys

/-- The header fields each dialect requires, per the checks in `read_csv`,
`read_serato_txt` and `read_rekordbox_txt`. -/
def requiredFields : Dialect → List String
  | Dialect.formattedCsv => ["artist", "title"]
  | Dialect.seratoCsv => ["name", "artist"]
  | Dialect.seratoTxt => ["artist", "name"]
  | Dialect.rekordboxTxt => ["Artist", "Track Title"]

/-! ## Helper lemmas -/

/-- When the last accumulated track differs from the incoming one (or the
accumulator is empty), the merge loop just appends. -/
theorem mergeStep_append (acc : List Track) (track : Track)
    (h : ∀ last, acc.getLast? = some last → trackEq last track = false) :
    mergeStep acc track = acc ++ [track] := by
  unfold mergeStep
  cases hacc : acc.getLast? with
  | none => rfl
  | some last => simp [h last hacc]

/-- The merge loop leaves a list with no adjacent artist+title duplicates
untouched (generalized over the accumulator). -/
theorem foldl_mergeStep_no_adjacent :
    ∀ (l acc : List Track),
      List.Chain' (fun a b => trackEq a b = false) l →
      (∀ last t, acc.getLast? = some last → l.head? = some t → trackEq last t = false) →
      l.foldl mergeStep acc = acc ++ l := by
  intro l
  induction l with
  | nil => intro acc _ _; simp
  | cons t ts ih =>
    intro acc hchain hacc
    have hstep : mergeStep acc t = acc ++ [t] :=
      mergeStep_append acc t fun last hlast => hacc last t hlast rfl
    have hts : ts.foldl mergeStep (acc ++ [t]) = (acc ++ [t]) ++ ts := by
      apply ih
      · exact (List.chain'_cons'.mp hchain).2
      · intro last u hlast hu
        rw [List.getLast?_concat] at hlast
        cases hlast
        exact (List.chain'_cons'.mp hchain).1 u hu
    rw [List.foldl_cons, hstep, hts, List.append_assoc]
    rfl

/-- Reference value for the total duration: the sum of the play times with
`None` counted as zero. -/
def sumPlayTime (tracks : List Track) : Int :=
  (tracks.map fun t => t.play_time.getD 0).sum

/-- The `get_total_playtime` loop computes `sumPlayTime`. -/
theorem foldl_addTrackTime (l : List Track) :
    ∀ acc : Int, l.foldl addTrackTime acc = acc + sumPlayTime l := by
  induction l with
  | nil => intro acc; simp [sumPlayTime]
  | cons t ts ih =>
    intro acc
    rw [List.foldl_cons, ih]
    cases h : t.play_time with
    | none => simp [addTrackTime, sumPlayTime, h]
    | some d => simp [addTrackTime, sumPlayTime, h]; ring

/-- Tracks with no play time contribute nothing to `sumPlayTime`. -/
theorem sumPlayTime_eq_zero (tracks : List Track)
    (h : ∀ t ∈ tracks, t.play_time = none) : sumPlayTime tracks = 0 := by
  induction tracks with
  | nil => rfl
  | cons t ts ih =>
    have ht := h t (by simp)
    have hts := ih fun u hu => h u (by simp [hu])
    simp [sumPlayTime, ht] at hts ⊢
    simpa [sumPlayTime] using hts

/-! ## Claims -/

/-- C1: the Consecutive Merge Reducer compares each new row only against the
last accumulated track (artist+title equality); when equal it adds the new
row's play duration to the accumulated one (`none + some d = d`, both `none`
stays `none`) and overwrites the accumulated `end_time`; when not equal it
appends.  Rows `[(A,T,5s), (A,T,3s), (B,U,2s)]` merge to
`[(A,T,8s), (B,U,2s)]`, and equal tracks separated by a different track stay
distinct. -/
theorem c1_consecutive_merge :
    (∀ (acc : List Track) (last track : Track),
      acc.getLast? = some last →
      (trackEq last track = true →
        mergeStep acc track =
          acc.dropLast ++
            [{ last with
                play_time := addPlayTime last.play_time track.play_time
                end_time := track.end_time }]) ∧
      (trackEq last track = false → mergeStep acc track = acc ++ [track])) ∧
    (∀ d : Int, addPlayTime none (some d) = some d) ∧
    addPlayTime none none = none ∧
    dedupTracks
        [⟨"A", "T", none, none, some 5⟩,
         ⟨"A", "T", none, some ⟨⟨1970, 1, 1⟩, ⟨1, 2, 3⟩⟩, some 3⟩,
         ⟨"B", "U", none, none, some 2⟩] =
      [⟨"A", "T", none, some ⟨⟨1970, 1, 1⟩, ⟨1, 2, 3⟩⟩, some 8⟩,
       ⟨"B", "U", none, none, some 2⟩] ∧
    dedupTracks
        [⟨"A", "T", none, none, some 5⟩,
         ⟨"B", "U", none, none, some 2⟩,
         ⟨"A", "T", none, none, some 3⟩] =
      [⟨"A", "T", none, none, some 5⟩,
       ⟨"B", "U", none, none, some 2⟩,
       ⟨"A", "T", none, none, some 3⟩] := by
  refine ⟨?_, fun d => rfl, rfl, by decide, by decide⟩
  intro acc last track hacc
  constructor
  · intro heq
    simp [mergeStep, hacc, heq]
  · intro heq
    simp [mergeStep, hacc, heq]

/-- Witness for C1 at a concrete accumulator and row. -/
theorem c1_consecutive_merge_witness :
    mergeStep [⟨"A", "T", none, none, some 5⟩]
        ⟨"A", "T", none, some ⟨⟨1970, 1, 1⟩, ⟨1, 2, 3⟩⟩, some 3⟩ =
      List.dropLast [⟨"A", "T", none, none, some 5⟩] ++
        [⟨"A", "T", none, some ⟨⟨1970, 1, 1⟩, ⟨1, 2, 3⟩⟩,
          addPlayTime (some 5) (some 3)⟩] :=
  ((c1_consecutive_merge.1 [⟨"A", "T", none, none, some 5⟩]
      ⟨"A", "T", none, none, some 5⟩
      ⟨"A", "T", none, some ⟨⟨1970, 1, 1⟩, ⟨1, 2, 3⟩⟩, some 3⟩ (by decide)).1 (by decide))

/-- C2: on a header/info-row-only input (no track rows) the `serato.rs`
pipeline yields zero tracks with `total_duration = None`, but the
`playlist.rs` copy of `parse_serato_tracks_from_data` indexes
`initial_tracks[0]` on the empty parsed-track list and panics (modelled as
`none`), and `read_serato_csv` indexes `data[0]` and panics on a fully empty
record list. -/
theorem c2_header_only_panic :
    parse_serato_tracks_from_data [[("name", "Header only")]] none = [] ∧
    (read_serato_csv [[("name", "Header only")]]).map
        (fun p => (p.tracks, p.total_duration)) = some ([], none) ∧
    parse_serato_tracks_from_data_v1 [[("name", "Header only")]] none = none ∧
    read_serato_csv [] = none := by
  decide

/-- C3 counterexample: a single track with a zero (non-`None`) play time
makes `get_total_playtime` return `None`, while the claim demands
`Some(sum) = Some(0)`. -/
theorem c3_total_duration_zero_cex :
    (⟨"A", "T", none, none, some 0⟩ : Track).play_time = some 0 ∧
    get_total_playtime [⟨"A", "T", none, none, some 0⟩] = none ∧
    sumPlayTime [⟨"A", "T", none, none, some 0⟩] = 0 := by
  decide

/-- C3 (amended): `total_duration` is `None` exactly when the sum of the
non-`None` play times is zero — in particular when no track has a duration,
but also when a zero or cancelling sum occurs — and `Some(sum)` otherwise. -/
theorem c3_total_duration_amended (tracks : List Track) :
    get_total_playtime tracks =
      (if sumPlayTime tracks = 0 then none else some (sumPlayTime tracks)) ∧
    ((∀ t ∈ tracks, t.play_time = none) → get_total_playtime tracks = none) := by
  have hfold : tracks.foldl addTrackTime 0 = sumPlayTime tracks := by
    rw [foldl_addTrackTime]; ring
  constructor
  · simp [get_total_playtime, hfold]
  · intro hnone
    simp [get_total_playtime, hfold, sumPlayTime_eq_zero tracks hnone]

/-- Witness for C3 (amended) on a concrete all-`None` playlist. -/
theorem c3_total_duration_amended_witness :
    get_total_playtime [⟨"A", "T", none, none, none⟩] = none :=
  (c3_total_duration_amended [⟨"A", "T", none, none, none⟩]).2 (by decide)

/-- C8: when no two adjacent rows are artist+title-equal the merge reducer
returns the input unchanged — for the `serato.rs` loop on every list, and
for the `playlist.rs` indexed loop on every non-empty list. -/
theorem c8_merge_identity (l : List Track)
    (h : List.Chain' (fun a b => trackEq a b = false) l) :
    dedupTracks l = l ∧ (l ≠ [] → dedupTracksIndexed l = some l) := by
  constructor
  · have := foldl_mergeStep_no_adjacent l [] h (by intro last t hlast _; cases hlast)
    simpa [dedupTracks] using this
  · intro hne
    match l, hne with
    | first :: rest, _ =>
      have hchain := h
      have hrest :
          rest.foldl mergeStep [first] = [first] ++ rest := by
        apply foldl_mergeStep_no_adjacent
        · exact (List.chain'_cons'.mp hchain).2
        · intro last u hlast hu
          simp at hlast
          cases hlast
          exact (List.chain'_cons'.mp hchain).1 u hu
      simp [dedupTracksIndexed, hrest]

/-- Witness for C8 on a concrete duplicate-free list. -/
theorem c8_merge_identity_witness :
    dedupTracks [⟨"X", "S", none, none, some 4⟩, ⟨"Y", "R", none, none, none⟩] =
      [⟨"X", "S", none, none, some 4⟩, ⟨"Y", "R", none, none, none⟩] :=
  (c8_merge_identity [⟨"X", "S", none, none, some 4⟩, ⟨"Y", "R", none, none, none⟩]
    (List.chain'_pair.mpr (by decide))).1

/-- C4 counterexample: with the claimed header
`"ARTIST   TITLE   PLAYTIME"` (three-space separators) the splitter does not
recover three values — runs of exactly five spaces are the only column
delimiters, so the whole header is one column and a correctly offset data
line comes back whole. -/
theorem c4_fixed_width_cex :
    read_serato_txt_lines
        [["ARTIST   TITLE   PLAYTIME"],
         ["-------------------------"],
         ["Aaa      Ttt     12:34"]] =
      [["ARTIST   TITLE   PLAYTIME"], ["Aaa      Ttt     12:34"]] ∧
    read_serato_txt_lines
        [["ARTIST   TITLE   PLAYTIME"],
         ["-------------------------"],
         ["Aaa      Ttt     12:34"]] ≠
      [["ARTIST", "TITLE", "PLAYTIME"], ["Aaa", "Ttt", "12:34"]] := by
  decide

/-- C4 (amended): the splitter processes column offsets from the rightmost
backward, splitting the remaining string at each offset, skipping offsets
not reachable in the remaining string, then reversing and right-padding —
and for a header whose column names are separated by runs of five or more
spaces (e.g. `"ARTIST     TITLE     PLAYTIME"`) it recovers the three
original trimmed values in order, including when the playtime cell is
missing from a shorter data line. -/
theorem c4_fixed_width_amended :
    (∀ (index : Nat) (rest : List Nat) (remaining : List Char),
      remaining.length ≤ index →
      extractCells (index :: rest) remaining = extractCells rest remaining) ∧
    (∀ (index : Nat) (rest : List Nat) (remaining : List Char),
      index < remaining.length →
      extractCells (index :: rest) remaining =
        String.mk (trimChars (remaining.drop index)) ::
          extractCells rest (remaining.take index)) ∧
    read_serato_txt_lines
        [["ARTIST     TITLE     PLAYTIME"],
         ["-----------------------------"],
         ["Aaa        Ttt        12:34"],
         ["Bbb        Uuu"]] =
      [["ARTIST", "TITLE", "PLAYTIME"],
       ["Aaa", "Ttt", "12:34"],
       ["Bbb", "Uuu", ""]] := by
  refine ⟨?_, ?_, by decide⟩
  · intro index rest remaining h
    simp [extractCells, h]
  · intro index rest remaining h
    rw [extractCells]
    simp [Nat.not_le.mpr h]

/-- Witness for C4 (amended): an unreachable offset is skipped. -/
theorem c4_fixed_width_amended_witness :
    extractCells [5] "abc".data = extractCells [] "abc".data :=
  c4_fixed_width_amended.1 5 [] "abc".data (by decide)

/-- C5 counterexample: a row whose `playtime` field is present but
unparseable, while start and end times both parse, yields `play_time = None`
— not the claimed derived `end - start` (which would be 60 seconds here). -/
theorem c5_play_duration_cex :
    (parse_track_with_time_from_row ⟨1970, 1, 1⟩
        [("artist", "A"), ("name", "T"), ("playtime", "garbage"),
         ("start time", "10.00.00 EET"), ("end time", "10.01.00 EET")]).start_time =
      some ⟨⟨1970, 1, 1⟩, ⟨10, 0, 0⟩⟩ ∧
    (parse_track_with_time_from_row ⟨1970, 1, 1⟩
        [("artist", "A"), ("name", "T"), ("playtime", "garbage"),
         ("start time", "10.00.00 EET"), ("end time", "10.01.00 EET")]).end_time =
      some ⟨⟨1970, 1, 1⟩, ⟨10, 1, 0⟩⟩ ∧
    dtSub ⟨⟨1970, 1, 1⟩, ⟨10, 1, 0⟩⟩ ⟨⟨1970, 1, 1⟩, ⟨10, 0, 0⟩⟩ = 60 ∧
    (parse_track_with_time_from_row ⟨1970, 1, 1⟩
        [("artist", "A"), ("name", "T"), ("playtime", "garbage"),
         ("start time", "10.00.00 EET"), ("end time", "10.01.00 EET")]).play_time =
      none := by
  decide

/-- C5 (amended): when the explicit `playtime` field is present, its parse
result is the play duration (`None` on parse failure, with no fallback);
only when the field is absent is the duration derived as `end - start` from
the parsed start and end times (`None` unless both parsed). -/
theorem c5_play_duration_amended (start_date : NaiveDate) (row : Row) :
    (∀ t, rowGet row "playtime" = some t →
      (parse_track_with_time_from_row start_date row).play_time =
        (parseTimeColon t).map fun n =>
          (n.hour : Int) * 3600 + (n.minute : Int) * 60 + (n.second : Int)) ∧
    (rowGet row "playtime" = none →
      (parse_track_with_time_from_row start_date row).play_time =
        (parse_track_with_time_from_row start_date row).start_time.bind fun s =>
          (parse_track_with_time_from_row start_date row).end_time.map fun e =>
            dtSub e s) := by
  constructor
  · intro t h
    simp [parse_track_with_time_from_row, h]
  · intro h
    simp [parse_track_with_time_from_row, h]

/-- Witness for C5 (amended): a row without a `playtime` field derives its
duration from start and end. -/
theorem c5_play_duration_amended_witness :
    (parse_track_with_time_from_row ⟨1970, 1, 1⟩
        [("artist", "A"), ("name", "T"),
         ("start time", "10.00.00 EET"), ("end time", "10.01.00 EET")]).play_time =
      (parse_track_with_time_from_row ⟨1970, 1, 1⟩
          [("artist", "A"), ("name", "T"),
           ("start time", "10.00.00 EET"), ("end time", "10.01.00 EET")]).start_time.bind
        fun s =>
          (parse_track_with_time_from_row ⟨1970, 1, 1⟩
              [("artist", "A"), ("name", "T"),
               ("start time", "10.00.00 EET"), ("end time", "10.01.00 EET")]).end_time.map
            fun e => dtSub e s :=
  (c5_play_duration_amended ⟨1970, 1, 1⟩
      [("artist", "A"), ("name", "T"),
       ("start time", "10.00.00 EET"), ("end time", "10.01.00 EET")]).2 (by decide)

/-- C6: a parsed structured `start time` field always wins; when it yields
nothing and the playlist name is non-empty the name is scanned, trying the
`D.M.YYYY` pattern before `YYYY.M.D`, the matched date returned at midnight.
`"Club Night 10.01.2019"` gives 2019-01-10 00:00:00 via the first pattern,
`"2019.01.10 Club Night"` gives the same date via the second pattern (the
first does not match it), and with both a structured field and a name date
the structured field's date is returned. -/
theorem c6_date_fallback :
    (∀ (data : Row) (d : NaiveDateTime),
      (rowGet data "start time").bind parseDateTimeFull = some d →
      (parse_serato_playlist_info data).2 = some d) ∧
    (∀ data : Row,
      (rowGet data "start time").bind parseDateTimeFull = none →
      (rowGet data "name").getD "" ≠ "" →
      (parse_serato_playlist_info data).2 =
        extract_datetime_from_name ((rowGet data "name").getD "")) ∧
    (∀ (input : String) (day month year : Nat),
      ddmmyyyyCaptures input.data = some (day, month, year) →
      extract_datetime_from_name input =
        (NaiveDate.fromYmdOpt (year : Int) month day).map NaiveDate.atMidnight) ∧
    (∀ (input : String) (year month day : Nat),
      ddmmyyyyCaptures input.data = none →
      yyyymmddCaptures input.data = some (year, month, day) →
      extract_datetime_from_name input =
        (NaiveDate.fromYmdOpt (year : Int) month day).map NaiveDate.atMidnight) ∧
    extract_datetime_from_name "Club Night 10.01.2019" =
      some ⟨⟨2019, 1, 10⟩, ⟨0, 0, 0⟩⟩ ∧
    (ddmmyyyyCaptures "2019.01.10 Club Night".data = none ∧
      yyyymmddCaptures "2019.01.10 Club Night".data = some (2019, 1, 10) ∧
      extract_datetime_from_name "2019.01.10 Club Night" =
        some ⟨⟨2019, 1, 10⟩, ⟨0, 0, 0⟩⟩) ∧
    parse_serato_playlist_info
        [("name", "Club Night 10.01.2019"),
         ("start time", "11.02.2020, 20.00.00 EET")] =
      ("Club Night 10.01.2019", some ⟨⟨2020, 2, 11⟩, ⟨20, 0, 0⟩⟩) := by
  refine ⟨?_, ?_, ?_, ?_, by decide, by decide, by decide⟩
  · intro data d h
    simp [parse_serato_playlist_info, h]
  · intro data h hname
    simp [parse_serato_playlist_info, h, hname]
  · intro input day month year h
    simp [extract_datetime_from_name, h]
  · intro input year month day h1 h2
    simp [extract_datetime_from_name, h1, h2]

/-- Witness for C6: the structured date wins at a concrete row. -/
theorem c6_date_fallback_witness :
    (parse_serato_playlist_info
        [("name", "Club Night 10.01.2019"),
         ("start time", "11.02.2020, 20.00.00 EET")]).2 =
      some ⟨⟨2020, 2, 11⟩, ⟨20, 0, 0⟩⟩ :=
  c6_date_fallback.1
    [("name", "Club Night 10.01.2019"), ("start time", "11.02.2020, 20.00.00 EET")]
    ⟨⟨2020, 2, 11⟩, ⟨20, 0, 0⟩⟩ (by decide)

/-- C7: for each supported extension and header-key set, dialect detection
returns exactly one dialect — whose required header fields are then all
present — or an error (missing required field / unrecognized dialect);
it never selects a dialect with a required field absent. -/
theorem c7_dialect_detection (format : FileFormat) (keys : List String) :
    (∃ d, detect format keys = Except.ok d ∧
      ∀ f ∈ requiredFields d, keys.contains f = true) ∨
    (∃ e, detect format keys = Except.error e) := by
  cases format with
  | Csv =>
    by_cases ha : "artist" ∈ keys
    · by_cases ht : "title" ∈ keys
      · refine Or.inl ⟨Dialect.formattedCsv, by simp [detect, detect_csv, ha, ht], ?_⟩
        intro f hf
        simp [requiredFields] at hf
        rcases hf with rfl | rfl
        · simpa using ha
        · simpa using ht
      · by_cases hn : "name" ∈ keys
        · refine Or.inl ⟨Dialect.seratoCsv, by simp [detect, detect_csv, ha, ht, hn], ?_⟩
          intro f hf
          simp [requiredFields] at hf
          rcases hf with rfl | rfl
          · simpa using hn
          · simpa using ha
        · exact Or.inr ⟨"Serato CSV missing required field: 'name'",
            by simp [detect, detect_csv, ha, ht, hn]⟩
    · by_cases hn : "name" ∈ keys
      · exact Or.inr ⟨"Serato CSV missing required field: 'artist'",
          by simp [detect, detect_csv, ha, hn]⟩
      · exact Or.inr ⟨"Serato CSV missing required field: 'name'",
          by simp [detect, detect_csv, ha, hn]⟩
  | Txt =>
    by_cases hn : "name" ∈ keys
    · by_cases ha : "artist" ∈ keys
      · refine Or.inl ⟨Dialect.seratoTxt, by simp [detect, detect_txt, hn, ha], ?_⟩
        intro f hf
        simp [requiredFields] at hf
        rcases hf with rfl | rfl
        · simpa using ha
        · simpa using hn
      · exact Or.inr ⟨"Serato TXT missing required field: 'artist'",
          by simp [detect, detect_txt, hn, ha]⟩
    · by_cases hh : "#" ∈ keys
      · by_cases hA : "Artist" ∈ keys
        · by_cases hT : "Track Title" ∈ keys
          · refine Or.inl ⟨Dialect.rekordboxTxt,
              by simp [detect, detect_txt, hn, hh, hA, hT], ?_⟩
            intro f hf
            simp [requiredFields] at hf
            rcases hf with rfl | rfl
            · simpa using hA
            · simpa using hT
          · exact Or.inr ⟨"Rekordbox TXT missing required field: 'Track Title'",
              by simp [detect, detect_txt, hn, hh, hA, hT]⟩
        · exact Or.inr ⟨"Rekordbox TXT missing required field: 'Artist'",
            by simp [detect, detect_txt, hn, hh, hA]⟩
      · exact Or.inr
          ⟨"Input file does not seem to be a valid Serato or Rekordbox txt playlist",
            by simp [detect, detect_txt, hn, hh]⟩

/-- Witness for C7 at a concrete extension/header combination. -/
theorem c7_dialect_detection_witness :
    (∃ d, detect FileFormat.Csv ["name", "artist", "start time"] = Except.ok d ∧
      ∀ f ∈ requiredFields d, ["name", "artist", "start time"].contains f = true) ∨
    (∃ e, detect FileFormat.Csv ["name", "artist", "start time"] = Except.error e) :=
  c7_dialect_detection FileFormat.Csv ["name", "artist", "start time"]

/-- C9: when the `D.M.YYYY` regex matches textually but the captured numbers
are not a valid calendar date, name-based extraction returns `None` at once
(the `?` on `from_ymd_opt` exits the function) without trying the
`YYYY.M.D` pattern — even when a valid `YYYY.M.D` date occurs later in the
same string. -/
theorem c9_invalid_date_commit :
    (∀ (input : String) (day month year : Nat),
      ddmmyyyyCaptures input.data = some (day, month, year) →
      NaiveDate.fromYmdOpt (year : Int) month day = none →
      extract_datetime_from_name input = none) ∧
    (ddmmyyyyCaptures "99.99.2021 set 2019.01.10".data = some (99, 99, 2021) ∧
      NaiveDate.fromYmdOpt (2021 : Int) 99 99 = none ∧
      yyyymmddCaptures "99.99.2021 set 2019.01.10".data = some (2019, 1, 10) ∧
      NaiveDate.fromYmdOpt (2019 : Int) 1 10 = some ⟨2019, 1, 10⟩ ∧
      extract_datetime_from_name "99.99.2021 set 2019.01.10" = none) := by
  constructor
  · intro input day month year h1 h2
    simp [extract_datetime_from_name, h1, h2]
  · decide

/-- Witness for C9 at the concrete two-date string. -/
theorem c9_invalid_date_commit_witness :
    extract_datetime_from_name "99.99.2021 set 2019.01.10" = none :=
  c9_invalid_date_commit.1 "99.99.2021 set 2019.01.10" 99 99 2021
    (by decide) (by decide)

/-- C10: with no recovered playlist date, `unwrap_or_default().date()` is
1970-01-01, and every successfully parsed time-only start/end string is
composed with that epoch date; a concrete Serato row pipeline run shows the
resulting track carrying epoch-dated timestamps. -/
theorem c10_epoch_date_compose (row : Row) (tm : NaiveTime) :
    ((none : Option NaiveDateTime).getD epochDateTime).date = ⟨1970, 1, 1⟩ ∧
    ((rowGet row "start time").bind parseTimeZ = some tm →
      (parse_track_with_time_from_row ⟨1970, 1, 1⟩ row).start_time =
        some ⟨⟨1970, 1, 1⟩, tm⟩) ∧
    ((rowGet row "end time").bind parseTimeZ = some tm →
      (parse_track_with_time_from_row ⟨1970, 1, 1⟩ row).end_time =
        some ⟨⟨1970, 1, 1⟩, tm⟩) ∧
    parse_serato_tracks_from_data
        [[("name", "info")],
         [("artist", "A"), ("name", "T"),
          ("start time", "10.00.00 EET"), ("end time", "10.01.00 EET")]] none =
      [⟨"A", "T", some ⟨⟨1970, 1, 1⟩, ⟨10, 0, 0⟩⟩,
        some ⟨⟨1970, 1, 1⟩, ⟨10, 1, 0⟩⟩, some 60⟩] := by
  refine ⟨rfl, ?_, ?_, by decide⟩
  · intro h
    simp [parse_track_with_time_from_row, h]
  · intro h
    simp [parse_track_with_time_from_row, h]

/-- Witness for C10 at a concrete row. -/
theorem c10_epoch_date_compose_witness :
    (parse_track_with_time_from_row ⟨1970, 1, 1⟩
        [("artist", "A"), ("name", "T"),
         ("start time", "10.00.00 EET"), ("end time", "10.01.00 EET")]).start_time =
      some ⟨⟨1970, 1, 1⟩, ⟨10, 0, 0⟩⟩ :=
  (c10_epoch_date_compose
      [("artist", "A"), ("name", "T"),
       ("start time", "10.00.00 EET"), ("end time", "10.01.00 EET")]
      ⟨10, 0, 0⟩).2.1 (by decide)

end PlaylistFormatter
